import Mathlib

/-!
Verification development for the pfp backend server (src/index.js).

The embedded core is:
* the Gemini API key rotation (`getNextApiKey`, a cyclic index over
  `geminiApiKeys`),
* the recursive retry controller `generateImage(prompt, retries, maxRetries)`,
* the watermark compositing step `applyWatermark`,
* the `GET /api/gallery` handler.

Conventions of the embedding:
* The external generation call (axios POST + response classification) is
  modelled by a stub `client : Nat → Outcome` giving the outcome of the
  n-th network call of a run.
* Module-level mutable state (`currentApiKeyIndex`) together with the
  observable counters of a run (network calls made, key advances made,
  total delay slept) is threaded explicitly as a `GenState`.
* JavaScript `x || d` defaulting on numeric arguments is `jsOrDefault`
  (absent/undefined and 0 are falsy).
* Machine arithmetic: all counters are `Nat`; pixel arithmetic in the
  watermarker uses exact `ℚ`/`ℤ` with JavaScript `Math.round` modelled as
  floor (x + 1/2) for the nonnegative values that occur.
-/

/-- Outcome of one attempt of the generation client, as classified by
`generateImage` in src/index.js: a 2xx response with image data, a 2xx
response whose payload lacks `bytesBase64Encoded`, HTTP 429, HTTP 503, or
any other error. -/
inductive Outcome where
  | success (bytes : List Nat)
  | empty
  | rateLimited
  | unavailable
  | otherFailure (msg : String)
deriving DecidableEq, Repr

/-- Result of a `generateImage` run: returned bytes, or one of the thrown
errors (src/index.js lines 104-153). -/
inductive GenResult where
  | ok (bytes : List Nat)
  | noApiKey
  | maxRetriesReached
  | noImageError
  | otherError (msg : String)
deriving DecidableEq, Repr

/-- Observable state of a run: current key index (`currentApiKeyIndex`),
number of network calls issued, number of `getNextApiKey` invocations, and
total milliseconds of delay slept. -/
structure GenState where
  idx : Nat
  calls : Nat
  advances : Nat
  delayMs : Nat
deriving DecidableEq, Repr

/-- src/index.js lines 91-96: circular rotation of the key index. -/
def getNextApiKey (len idx : Nat) : Nat := (idx + 1) % len

/-- The `!geminiApiKey` check of src/index.js line 104: `geminiApiKey` is
`geminiApiKeys[currentApiKeyIndex]` and is falsy when the index is out of
bounds (empty pool) or the entry is the empty string. -/
def keyAvailable (keys : List String) (idx : Nat) : Bool :=
  match keys[idx]? with
  | none => false
  | some k => !(k.isEmpty)

/-- JavaScript `x || d` for a numeric argument `x` that may be absent:
`undefined` and `0` are falsy and yield the default. -/
def jsOrDefault : Option Nat → Nat → Nat
  | none, d => d
  | some 0, d => d
  | some (n + 1), _ => n + 1

/-- Fueled form of the recursive retry logic of `generateImage`
(src/index.js lines 99-155).  The fuel is the embedding's termination
measure; `generateImage` below instantiates it with `maxRetries - retries`,
which makes the fuel-0 fallthrough unreachable (see `generateImage_eq`).

Per attempt, in source order: the `!geminiApiKey` guard, the
`retries >= maxRetries` guard, one network call, then:
* success with image data → return the bytes;
* 2xx without image data → throw "No image returned from Gemini.";
* 429 → `getNextApiKey()`, 1000 ms delay, recurse with `retries + 1`;
* 503 → 5000 ms delay, `getNextApiKey()`, recurse with `retries + 1`;
* any other error → rethrow. -/
def generateImageGo (client : Nat → Outcome) (keys : List String)
    (maxRetries : Nat) : Nat → Nat → GenState → GenResult × GenState
  | fuel, retries, s =>
    if keyAvailable keys s.idx = false then (.noApiKey, s)
    else if maxRetries ≤ retries then (.maxRetriesReached, s)
    else
      match fuel with
      | 0 => (.maxRetriesReached, s)
      | fuel' + 1 =>
        match client s.calls with
        | .success bytes =>
            (.ok bytes, ⟨s.idx, s.calls + 1, s.advances, s.delayMs⟩)
        | .empty =>
            (.noImageError, ⟨s.idx, s.calls + 1, s.advances, s.delayMs⟩)
        | .rateLimited =>
            generateImageGo client keys maxRetries fuel' (retries + 1)
              ⟨getNextApiKey keys.length s.idx, s.calls + 1,
                s.advances + 1, s.delayMs + 1000⟩
        | .unavailable =>
            generateImageGo client keys maxRetries fuel' (retries + 1)
              ⟨getNextApiKey keys.length s.idx, s.calls + 1,
                s.advances + 1, s.delayMs + 5000⟩
        | .otherFailure m =>
            (.otherError m, ⟨s.idx, s.calls + 1, s.advances, s.delayMs⟩)

/-- `generateImage(prompt, retries, maxRetries)` of src/index.js lines
99-155, with the run counters made explicit.  The prompt does not affect
control flow and is absorbed into `client`. -/
def generateImage (client : Nat → Outcome) (keys : List String)
    (retries maxRetries : Nat) (s : GenState) : GenResult × GenState :=
  generateImageGo client keys maxRetries (maxRetries - retries) retries s

/-- Calling `generateImage` the way the route handler does (line 241:
`generateImage(prompt)`), or with explicit `retries` / `maxRetries`
arguments: `retries = retries || 0`, `maxRetries = maxRetries ||
geminiApiKeys.length * 2` (lines 100-101), starting from key index `idx0`
with fresh counters. -/
def generateImageEntry (client : Nat → Outcome) (keys : List String)
    (idx0 : Nat) (retriesArg maxRetriesArg : Option Nat) :
    GenResult × GenState :=
  generateImage client keys (jsOrDefault retriesArg 0)
    (jsOrDefault maxRetriesArg (keys.length * 2)) ⟨idx0, 0, 0, 0⟩

/-- Iterating `getNextApiKey` n times from a starting index. -/
def advanceTimes (len : Nat) : Nat → Nat → Nat
  | 0, idx => idx
  | n + 1, idx => advanceTimes len n (getNextApiKey len idx)

theorem generateImageGo_zero (client : Nat → Outcome) (keys : List String)
    (maxRetries retries : Nat) (s : GenState) :
    generateImageGo client keys maxRetries 0 retries s =
      if keyAvailable keys s.idx = false then (.noApiKey, s)
      else if maxRetries ≤ retries then (.maxRetriesReached, s)
      else (.maxRetriesReached, s) := rfl

theorem generateImageGo_succ (client : Nat → Outcome) (keys : List String)
    (maxRetries fuel retries : Nat) (s : GenState) :
    generateImageGo client keys maxRetries (fuel + 1) retries s =
      if keyAvailable keys s.idx = false then (.noApiKey, s)
      else if maxRetries ≤ retries then (.maxRetriesReached, s)
      else
        match client s.calls with
        | .success bytes =>
            (.ok bytes, ⟨s.idx, s.calls + 1, s.advances, s.delayMs⟩)
        | .empty =>
            (.noImageError, ⟨s.idx, s.calls + 1, s.advances, s.delayMs⟩)
        | .rateLimited =>
            generateImageGo client keys maxRetries fuel (retries + 1)
              ⟨getNextApiKey keys.length s.idx, s.calls + 1,
                s.advances + 1, s.delayMs + 1000⟩
        | .unavailable =>
            generateImageGo client keys maxRetries fuel (retries + 1)
              ⟨getNextApiKey keys.length s.idx, s.calls + 1,
                s.advances + 1, s.delayMs + 5000⟩
        | .otherFailure m =>
            (.otherError m, ⟨s.idx, s.calls + 1, s.advances, s.delayMs⟩) := rfl

/-- The source's recursive equation for `generateImage`: the fueled
definition satisfies exactly the self-invocation of src/index.js. -/
theorem generateImage_eq (client : Nat → Outcome) (keys : List String)
    (retries maxRetries : Nat) (s : GenState) :
    generateImage client keys retries maxRetries s =
      if keyAvailable keys s.idx = false then (.noApiKey, s)
      else if maxRetries ≤ retries then (.maxRetriesReached, s)
      else
        match client s.calls with
        | .success bytes =>
            (.ok bytes, ⟨s.idx, s.calls + 1, s.advances, s.delayMs⟩)
        | .empty =>
            (.noImageError, ⟨s.idx, s.calls + 1, s.advances, s.delayMs⟩)
        | .rateLimited =>
            generateImage client keys (retries + 1) maxRetries
              ⟨getNextApiKey keys.length s.idx, s.calls + 1,
                s.advances + 1, s.delayMs + 1000⟩
        | .unavailable =>
            generateImage client keys (retries + 1) maxRetries
              ⟨getNextApiKey keys.length s.idx, s.calls + 1,
                s.advances + 1, s.delayMs + 5000⟩
        | .otherFailure m =>
            (.otherError m, ⟨s.idx, s.calls + 1, s.advances, s.delayMs⟩) := by
  by_cases hk : keyAvailable keys s.idx = false
  · have hfuel : ∀ fuel,
        generateImageGo client keys maxRetries fuel retries s =
          (.noApiKey, s) := by
      intro fuel
      cases fuel
      · rw [generateImageGo_zero, if_pos hk]
      · rw [generateImageGo_succ, if_pos hk]
    rw [generateImage, hfuel, if_pos hk]
  · by_cases hr : maxRetries ≤ retries
    · have h0 : maxRetries - retries = 0 := Nat.sub_eq_zero_of_le hr
      rw [generateImage, h0, generateImageGo_zero]
      simp only [if_neg hk, if_pos hr]
    · have h1 : maxRetries - retries = (maxRetries - (retries + 1)) + 1 := by
        omega
      rw [generateImage, h1, generateImageGo_succ]
      simp only [if_neg hk, if_neg hr, generateImage]

/-- A pool whose entries are all non-empty strings (the env-loading loop of
src/index.js lines 79-84 only pushes truthy values) has an available key at
every in-range index. -/
theorem keyAvailable_of_valid (keys : List String)
    (hall : ∀ k ∈ keys, k ≠ "") {idx : Nat} (hidx : idx < keys.length) :
    keyAvailable keys idx = true := by
  have hmem : keys[idx] ∈ keys := List.getElem_mem hidx
  have hne : keys[idx] ≠ "" := hall _ hmem
  unfold keyAvailable
  rw [List.getElem?_eq_getElem hidx]
  have hfalse : keys[idx].isEmpty = false := by
    by_cases h : keys[idx].isEmpty = true
    · exact absurd ((String.isEmpty_iff _).mp h) hne
    · simpa using h
  simp [hfalse]

theorem generateImage_noKey (client : Nat → Outcome) (keys : List String)
    (retries maxRetries : Nat) (s : GenState)
    (hk : keyAvailable keys s.idx = false) :
    generateImage client keys retries maxRetries s = (.noApiKey, s) := by
  rw [generateImage_eq, if_pos hk]

theorem generateImage_budget (client : Nat → Outcome) (keys : List String)
    (retries maxRetries : Nat) (s : GenState)
    (hk : keyAvailable keys s.idx = true) (hr : maxRetries ≤ retries) :
    generateImage client keys retries maxRetries s =
      (.maxRetriesReached, s) := by
  rw [generateImage_eq, if_neg (by simp [hk]), if_pos hr]

theorem generateImage_success_step (client : Nat → Outcome)
    (keys : List String) (retries maxRetries : Nat) (s : GenState)
    (B : List Nat) (hk : keyAvailable keys s.idx = true)
    (hr : retries < maxRetries) (hc : client s.calls = Outcome.success B) :
    generateImage client keys retries maxRetries s =
      (.ok B, ⟨s.idx, s.calls + 1, s.advances, s.delayMs⟩) := by
  rw [generateImage_eq, if_neg (by simp [hk]), if_neg (by omega)]
  simp only [hc]

theorem generateImage_empty_step (client : Nat → Outcome)
    (keys : List String) (retries maxRetries : Nat) (s : GenState)
    (hk : keyAvailable keys s.idx = true) (hr : retries < maxRetries)
    (hc : client s.calls = Outcome.empty) :
    generateImage client keys retries maxRetries s =
      (.noImageError, ⟨s.idx, s.calls + 1, s.advances, s.delayMs⟩) := by
  rw [generateImage_eq, if_neg (by simp [hk]), if_neg (by omega)]
  simp only [hc]

theorem generateImage_other_step (client : Nat → Outcome)
    (keys : List String) (retries maxRetries : Nat) (s : GenState)
    (m : String) (hk : keyAvailable keys s.idx = true)
    (hr : retries < maxRetries) (hc : client s.calls = Outcome.otherFailure m) :
    generateImage client keys retries maxRetries s =
      (.otherError m, ⟨s.idx, s.calls + 1, s.advances, s.delayMs⟩) := by
  rw [generateImage_eq, if_neg (by simp [hk]), if_neg (by omega)]
  simp only [hc]

theorem generateImage_rateLimited_step (client : Nat → Outcome)
    (keys : List String) (retries maxRetries : Nat) (s : GenState)
    (hk : keyAvailable keys s.idx = true) (hr : retries < maxRetries)
    (hc : client s.calls = Outcome.rateLimited) :
    generateImage client keys retries maxRetries s =
      generateImage client keys (retries + 1) maxRetries
        ⟨getNextApiKey keys.length s.idx, s.calls + 1, s.advances + 1,
          s.delayMs + 1000⟩ := by
  rw [generateImage_eq, if_neg (by simp [hk]), if_neg (by omega)]
  simp only [hc]

theorem generateImage_unavailable_step (client : Nat → Outcome)
    (keys : List String) (retries maxRetries : Nat) (s : GenState)
    (hk : keyAvailable keys s.idx = true) (hr : retries < maxRetries)
    (hc : client s.calls = Outcome.unavailable) :
    generateImage client keys retries maxRetries s =
      generateImage client keys (retries + 1) maxRetries
        ⟨getNextApiKey keys.length s.idx, s.calls + 1, s.advances + 1,
          s.delayMs + 5000⟩ := by
  rw [generateImage_eq, if_neg (by simp [hk]), if_neg (by omega)]
  simp only [hc]

/-- The network-call counter never decreases over a run. -/
theorem generateImageGo_calls_le (client : Nat → Outcome)
    (keys : List String) :
    ∀ (fuel retries maxRetries : Nat) (s : GenState),
      s.calls ≤ (generateImageGo client keys maxRetries fuel retries s).2.calls := by
  intro fuel
  induction fuel with
  | zero =>
    intro retries maxRetries s
    rw [generateImageGo_zero]
    split
    · exact Nat.le_refl _
    · split
      · exact Nat.le_refl _
      · exact Nat.le_refl _
  | succ f ih =>
    intro retries maxRetries s
    rw [generateImageGo_succ]
    split
    · exact Nat.le_refl _
    · split
      · exact Nat.le_refl _
      · split
        · exact Nat.le_succ _
        · exact Nat.le_succ _
        · exact Nat.le_trans (Nat.le_succ _)
            (ih (retries + 1) maxRetries
              ⟨getNextApiKey keys.length s.idx, s.calls + 1, s.advances + 1,
                s.delayMs + 1000⟩)
        · exact Nat.le_trans (Nat.le_succ _)
            (ih (retries + 1) maxRetries
              ⟨getNextApiKey keys.length s.idx, s.calls + 1, s.advances + 1,
                s.delayMs + 5000⟩)
        · exact Nat.le_succ _

theorem generateImage_calls_le (client : Nat → Outcome) (keys : List String)
    (retries maxRetries : Nat) (s : GenState) :
    s.calls ≤ (generateImage client keys retries maxRetries s).2.calls :=
  generateImageGo_calls_le client keys _ retries maxRetries s

theorem generateImage_calls_pos (client : Nat → Outcome) (keys : List String)
    (retries maxRetries : Nat) (s : GenState) (h1 : 1 ≤ s.calls) :
    1 ≤ (generateImage client keys retries maxRetries s).2.calls :=
  Nat.le_trans h1 (generateImage_calls_le client keys retries maxRetries s)

/-- A run against a client that is rate limited on every call burns the
whole remaining budget: one network call, one key advance and one 1 s delay
per remaining attempt, ending in the max-retries error. -/
theorem run_rateLimited (client : Nat → Outcome) (keys : List String)
    (hall : ∀ k ∈ keys, k ≠ "") (hlen : 0 < keys.length)
    (hclient : ∀ i, client i = Outcome.rateLimited) :
    ∀ (fuel retries maxRetries : Nat), maxRetries - retries = fuel →
      ∀ s : GenState, s.idx < keys.length →
        generateImage client keys retries maxRetries s =
          (.maxRetriesReached,
            ⟨(s.idx + fuel) % keys.length, s.calls + fuel,
              s.advances + fuel, s.delayMs + 1000 * fuel⟩) := by
  intro fuel
  induction fuel with
  | zero =>
    intro retries maxRetries hfuel s hidx
    have hk : keyAvailable keys s.idx = true := keyAvailable_of_valid keys hall hidx
    rw [generateImage_budget client keys retries maxRetries s hk (by omega)]
    simp [Nat.mod_eq_of_lt hidx]
  | succ f ih =>
    intro retries maxRetries hfuel s hidx
    have hk : keyAvailable keys s.idx = true := keyAvailable_of_valid keys hall hidx
    rw [generateImage_rateLimited_step client keys retries maxRetries s hk
      (by omega) (hclient _)]
    have hidx' : getNextApiKey keys.length s.idx < keys.length :=
      Nat.mod_lt _ hlen
    rw [ih (retries + 1) maxRetries (by omega) _ hidx']
    simp only [getNextApiKey]
    rw [Nat.mod_add_mod]
    have h2 : s.idx + 1 + f = s.idx + (f + 1) := by omega
    rw [h2]
    simp only [Prod.mk.injEq, GenState.mk.injEq, true_and]
    omega

/-- A run against a client that is rate limited on its first `j` calls and
succeeds on call `j` (within budget) returns the bytes of call `j` after
exactly `j` key advances and `j + 1` network calls. -/
theorem run_successAt (client : Nat → Outcome) (keys : List String)
    (hall : ∀ k ∈ keys, k ≠ "") (hlen : 0 < keys.length) (B : List Nat) :
    ∀ (j retries maxRetries : Nat) (s : GenState),
      s.idx < keys.length →
      (∀ i, i < j → client (s.calls + i) = Outcome.rateLimited) →
      client (s.calls + j) = Outcome.success B →
      retries + j < maxRetries →
      generateImage client keys retries maxRetries s =
        (.ok B, ⟨(s.idx + j) % keys.length, s.calls + j + 1,
          s.advances + j, s.delayMs + 1000 * j⟩) := by
  intro j
  induction j with
  | zero =>
    intro retries maxRetries s hidx hfail hsucc hbudget
    have hk : keyAvailable keys s.idx = true := keyAvailable_of_valid keys hall hidx
    rw [generateImage_success_step client keys retries maxRetries s B hk
      (by omega) (by simpa using hsucc)]
    simp [Nat.mod_eq_of_lt hidx]
  | succ j ih =>
    intro retries maxRetries s hidx hfail hsucc hbudget
    have hk : keyAvailable keys s.idx = true := keyAvailable_of_valid keys hall hidx
    have hc0 : client s.calls = Outcome.rateLimited := by
      simpa using hfail 0 (by omega)
    rw [generateImage_rateLimited_step client keys retries maxRetries s hk
      (by omega) hc0]
    have hidx' : getNextApiKey keys.length s.idx < keys.length :=
      Nat.mod_lt _ hlen
    rw [ih (retries + 1) maxRetries
      ⟨getNextApiKey keys.length s.idx, s.calls + 1, s.advances + 1,
        s.delayMs + 1000⟩ hidx'
      (fun i hi => by
        dsimp only
        have e : s.calls + 1 + i = s.calls + (i + 1) := by omega
        rw [e]
        exact hfail (i + 1) (by omega))
      (by
        dsimp only
        have e : s.calls + 1 + j = s.calls + (j + 1) := by omega
        rw [e]
        exact hsucc)
      (by omega)]
    simp only [getNextApiKey]
    rw [Nat.mod_add_mod]
    have h2 : s.idx + 1 + j = s.idx + (j + 1) := by omega
    rw [h2]
    simp only [Prod.mk.injEq, GenState.mk.injEq, true_and]
    omega

/-- `advanceTimes` is addition modulo the pool length. -/
theorem advanceTimes_mod (k : Nat) (hk : 0 < k) :
    ∀ (n idx : Nat), idx < k → advanceTimes k n idx = (idx + n) % k := by
  intro n
  induction n with
  | zero =>
    intro idx h
    simp [advanceTimes, Nat.mod_eq_of_lt h]
  | succ m ih =>
    intro idx h
    rw [advanceTimes]
    simp only [getNextApiKey]
    rw [ih _ (Nat.mod_lt _ hk), Nat.mod_add_mod]
    congr 1
    omega

/-- C1 counterexample: with a 2-credential pool and a client whose attempt
outcome is Empty (2xx without image data), `generateImage` surfaces the
failure to the caller after a single attempt — with zero KeyPool advances
and without exhausting the retry budget of 4. -/
theorem C1_counterexample :
    (generateImageEntry (fun _ => Outcome.empty) ["k1", "k2"] 0 none none).1 =
        GenResult.noImageError ∧
    (generateImageEntry (fun _ => Outcome.empty) ["k1", "k2"] 0 none none).2.advances = 0 ∧
    (generateImageEntry (fun _ => Outcome.empty) ["k1", "k2"] 0 none none).2.calls = 1 ∧
    jsOrDefault none (["k1", "k2"].length * 2) = 4 := by decide

/-- C1 (amended): when the key is available and the retry budget is not
exhausted, an attempt with outcome RateLimited (429) or Unavailable (503)
advances the KeyPool, sleeps (≈1 s resp. ≈5 s), increments the attempt
counter and retries without surfacing the failure; but an attempt with
outcome Empty or OtherFailure is surfaced to the caller immediately, with
no KeyPool advance, no delay and no retry. -/
theorem C1_amended_outcome_policy (client : Nat → Outcome)
    (keys : List String) (retries maxRetries : Nat) (s : GenState)
    (hk : keyAvailable keys s.idx = true) (hr : retries < maxRetries) :
    (client s.calls = Outcome.empty →
      generateImage client keys retries maxRetries s =
        (GenResult.noImageError, ⟨s.idx, s.calls + 1, s.advances, s.delayMs⟩)) ∧
    (∀ m, client s.calls = Outcome.otherFailure m →
      generateImage client keys retries maxRetries s =
        (GenResult.otherError m, ⟨s.idx, s.calls + 1, s.advances, s.delayMs⟩)) ∧
    (client s.calls = Outcome.rateLimited →
      generateImage client keys retries maxRetries s =
        generateImage client keys (retries + 1) maxRetries
          ⟨getNextApiKey keys.length s.idx, s.calls + 1, s.advances + 1,
            s.delayMs + 1000⟩) ∧
    (client s.calls = Outcome.unavailable →
      generateImage client keys retries maxRetries s =
        generateImage client keys (retries + 1) maxRetries
          ⟨getNextApiKey keys.length s.idx, s.calls + 1, s.advances + 1,
            s.delayMs + 5000⟩) :=
  ⟨fun hc => generateImage_empty_step client keys retries maxRetries s hk hr hc,
   fun m hc => generateImage_other_step client keys retries maxRetries s m hk hr hc,
   fun hc => generateImage_rateLimited_step client keys retries maxRetries s hk hr hc,
   fun hc => generateImage_unavailable_step client keys retries maxRetries s hk hr hc⟩

theorem C1_witness :
    generateImage (fun _ => Outcome.empty) ["k1"] 0 2 ⟨0, 0, 0, 0⟩ =
      (GenResult.noImageError, ⟨0, 1, 0, 0⟩) :=
  (C1_amended_outcome_policy (fun _ => Outcome.empty) ["k1"] 0 2 ⟨0, 0, 0, 0⟩
    (by decide) (by decide)).1 rfl

/-- C2: against a client that is rate limited on every attempt,
`generateImage` on a non-empty pool terminates with the max-retries error
after exactly `maxAttempts` network calls, where `maxAttempts` is the
supplied budget or `2 × pool size` when not supplied (or supplied falsy). -/
theorem C2_always_rateLimited_exhausts_budget (keys : List String)
    (hall : ∀ k ∈ keys, k ≠ "") (hlen : 0 < keys.length)
    (idx0 : Nat) (hidx : idx0 < keys.length)
    (client : Nat → Outcome) (hclient : ∀ i, client i = Outcome.rateLimited)
    (maxArg : Option Nat) :
    (generateImageEntry client keys idx0 none maxArg).1 =
        GenResult.maxRetriesReached ∧
    (generateImageEntry client keys idx0 none maxArg).2.calls =
      jsOrDefault maxArg (keys.length * 2) := by
  have h := run_rateLimited client keys hall hlen hclient
    (jsOrDefault maxArg (keys.length * 2)) 0
    (jsOrDefault maxArg (keys.length * 2)) (by omega)
    ⟨idx0, 0, 0, 0⟩ hidx
  have e : generateImageEntry client keys idx0 none maxArg =
      generateImage client keys 0 (jsOrDefault maxArg (keys.length * 2))
        ⟨idx0, 0, 0, 0⟩ := rfl
  rw [e, h]
  simp

theorem C2_witness :
    (generateImageEntry (fun _ => Outcome.rateLimited) ["a", "b"] 0 none none).1 =
        GenResult.maxRetriesReached ∧
    (generateImageEntry (fun _ => Outcome.rateLimited) ["a", "b"] 0 none none).2.calls =
      jsOrDefault none (["a", "b"].length * 2) :=
  C2_always_rateLimited_exhausts_budget ["a", "b"] (by decide) (by decide) 0
    (by decide) _ (fun _ => rfl) none

/-- C3: with an empty credential pool, `generateImage` fails with the
no-API-key error before any attempt: the final state records zero network
calls (and zero advances and zero delay), for every client and every
`retries` / `maxRetries` argument. -/
theorem C3_empty_pool_noCredentials (client : Nat → Outcome) (idx0 : Nat)
    (retriesArg maxRetriesArg : Option Nat) :
    generateImageEntry client [] idx0 retriesArg maxRetriesArg =
      (GenResult.noApiKey, ⟨idx0, 0, 0, 0⟩) := by
  have hk : keyAvailable [] idx0 = false := by simp [keyAvailable]
  unfold generateImageEntry
  exact generateImage_noKey _ _ _ _ _ hk

/-- C4: if the client is rate limited on attempts `0..j-1` and succeeds on
attempt `j`, with `j` below the budget, `generateImage` returns exactly the
bytes of attempt `j` and the KeyPool has been advanced exactly `j` times
(after `j + 1` network calls). -/
theorem C4_success_on_attempt_j (keys : List String)
    (hall : ∀ k ∈ keys, k ≠ "") (hlen : 0 < keys.length)
    (idx0 : Nat) (hidx : idx0 < keys.length)
    (client : Nat → Outcome) (B : List Nat) (j : Nat) (maxArg : Option Nat)
    (hfail : ∀ i, i < j → client i = Outcome.rateLimited)
    (hsucc : client j = Outcome.success B)
    (hj : j < jsOrDefault maxArg (keys.length * 2)) :
    generateImageEntry client keys idx0 none maxArg =
      (GenResult.ok B, ⟨(idx0 + j) % keys.length, j + 1, j, 1000 * j⟩) := by
  have h := run_successAt client keys hall hlen B j 0
    (jsOrDefault maxArg (keys.length * 2)) ⟨idx0, 0, 0, 0⟩ hidx
    (fun i hi => by
      dsimp only
      rw [Nat.zero_add]
      exact hfail i hi)
    (by
      dsimp only
      rw [Nat.zero_add]
      exact hsucc)
    (by omega)
  have e : generateImageEntry client keys idx0 none maxArg =
      generateImage client keys 0 (jsOrDefault maxArg (keys.length * 2))
        ⟨idx0, 0, 0, 0⟩ := rfl
  rw [e, h]
  simp

theorem C4_witness :
    generateImageEntry
        (fun n => if n < 2 then Outcome.rateLimited else Outcome.success [9])
        ["k1", "k2", "k3"] 0 none none =
      (GenResult.ok [9],
        ⟨(0 + 2) % ["k1", "k2", "k3"].length, 2 + 1, 2, 1000 * 2⟩) :=
  C4_success_on_attempt_j ["k1", "k2", "k3"] (by decide) (by decide) 0
    (by decide) _ [9] 2 none (by decide) (by decide) (by decide)

/-- C5: for every pool size `k ≥ 1` and starting index in range, advancing
`k` times returns the KeyPool to the credential it started at, and the
index stays in `[0, k)` after any number of advances. -/
theorem C5_rotation_cyclic (k : Nat) (hk1 : 1 ≤ k) (idx : Nat)
    (hidx : idx < k) :
    advanceTimes k k idx = idx ∧ ∀ n, advanceTimes k n idx < k := by
  have hk : 0 < k := hk1
  constructor
  · rw [advanceTimes_mod k hk k idx hidx, Nat.add_mod_right,
      Nat.mod_eq_of_lt hidx]
  · intro n
    rw [advanceTimes_mod k hk n idx hidx]
    exact Nat.mod_lt _ hk

theorem C5_witness : advanceTimes 3 3 1 = 1 ∧ advanceTimes 3 7 1 < 3 :=
  ⟨(C5_rotation_cyclic 3 (by decide) 1 (by decide)).1,
    (C5_rotation_cyclic 3 (by decide) 1 (by decide)).2 7⟩

/-- C10: an explicit falsy `maxRetries` argument (0) behaves identically
to omitting it — the `maxRetries || geminiApiKeys.length * 2` default
replaces it — and on a non-empty pool at least one generation attempt is
made. -/
theorem C10_falsy_budget_defaults (client : Nat → Outcome)
    (keys : List String) (idx0 : Nat) (retriesArg : Option Nat)
    (hall : ∀ k ∈ keys, k ≠ "") (hlen : 0 < keys.length)
    (hidx : idx0 < keys.length) :
    generateImageEntry client keys idx0 retriesArg (some 0) =
      generateImageEntry client keys idx0 retriesArg none ∧
    1 ≤ (generateImageEntry client keys idx0 none none).2.calls := by
  constructor
  · rfl
  · have hk : keyAvailable keys idx0 = true :=
      keyAvailable_of_valid keys hall hidx
    have e : generateImageEntry client keys idx0 none none =
        generateImage client keys 0 (keys.length * 2) ⟨idx0, 0, 0, 0⟩ := rfl
    rw [e, generateImage_eq]
    rw [if_neg (by simp [hk]), if_neg (by omega)]
    dsimp only
    cases hc : client 0 <;> simp only [hc] <;>
      first
        | exact Nat.le_refl 1
        | exact generateImage_calls_pos _ _ _ _ _ (by norm_num)

theorem C10_witness :
    generateImageEntry (fun _ => Outcome.rateLimited) ["a"] 0 none (some 0) =
      generateImageEntry (fun _ => Outcome.rateLimited) ["a"] 0 none none ∧
    1 ≤ (generateImageEntry (fun _ => Outcome.rateLimited) ["a"] 0 none none).2.calls :=
  C10_falsy_budget_defaults (fun _ => Outcome.rateLimited) ["a"] 0 none
    (by decide) (by decide) (by decide)

/-- Width and height of an image, as read by `sharp(...).metadata()`. -/
structure ImageMeta where
  width : Nat
  height : Nat
deriving DecidableEq, Repr

/-- JavaScript `Math.round` for the nonnegative values that occur here:
round half up, `⌊x + 1/2⌋`. -/
def jsRound (q : ℚ) : ℤ := ⌊q + 1 / 2⌋

/-- src/index.js line 164: `const maxLogoWidth = 100`. -/
def maxLogoWidth : ℤ := 100

/-- src/index.js line 177: `const padding = 10`. -/
def watermarkPadding : ℤ := 10

/-- The geometry and blend parameters `applyWatermark` passes to sharp:
resize target for the logo, composite position, blend mode and opacity. -/
structure WatermarkLayout where
  targetLogoWidth : ℤ
  targetLogoHeight : ℤ
  left : ℤ
  top : ℤ
  opacity : ℚ
  blend : String
deriving DecidableEq, Repr

/-- `applyWatermark` of src/index.js lines 158-191:
`targetLogoWidth = Math.min(Math.round(width * 0.4), maxLogoWidth)`,
`targetLogoHeight = Math.round((targetLogoWidth / logoMetadata.width) *
logoMetadata.height)`, composite at `top: padding`,
`left: Math.max(0, width - targetLogoWidth - padding)`, `blend: "over"`,
`opacity: 0.7`.  The literals 0.4 and 0.7 are read as the exact rationals
2/5 and 7/10. -/
def applyWatermark (base logo : ImageMeta) : WatermarkLayout :=
  let targetLogoWidth := min (jsRound ((base.width : ℚ) * (2 / 5))) maxLogoWidth
  let targetLogoHeight :=
    jsRound ((targetLogoWidth : ℚ) / (logo.width : ℚ) * (logo.height : ℚ))
  { targetLogoWidth := targetLogoWidth
    targetLogoHeight := targetLogoHeight
    left := max 0 ((base.width : ℤ) - targetLogoWidth - watermarkPadding)
    top := watermarkPadding
    opacity := 7 / 10
    blend := "over" }

/-- C6: the Watermarker computes target logo width
`min(round(W × 0.4), 100)` and target logo height
`round(targetWidth × logoH / logoW)` (the logo's aspect ratio); a
1000-wide base is capped at logo width 100 and a 100-wide base gets logo
width 40. -/
theorem C6_watermark_sizing (base logo : ImageMeta) :
    (applyWatermark base logo).targetLogoWidth =
      min (jsRound ((base.width : ℚ) * (2 / 5))) 100 ∧
    (applyWatermark base logo).targetLogoHeight =
      jsRound (((applyWatermark base logo).targetLogoWidth : ℚ) *
        (logo.height : ℚ) / (logo.width : ℚ)) ∧
    (applyWatermark ⟨1000, 1000⟩ logo).targetLogoWidth = 100 ∧
    (applyWatermark ⟨100, 100⟩ logo).targetLogoWidth = 40 := by
  refine ⟨rfl, ?_, ?_, ?_⟩
  · simp only [applyWatermark]
    rw [div_mul_eq_mul_div]
  · norm_num [applyWatermark, jsRound, maxLogoWidth]
  · norm_num [applyWatermark, jsRound, maxLogoWidth]

/-- C7: the Watermarker composites the logo at
`(x = max(0, W - targetWidth - padding), y = padding)` with padding 10, so
when the logo fits, its right edge sits exactly `padding` pixels from the
base's right edge and its top edge `padding` pixels from the top; when the
base is narrower than logo width + padding, x clamps to 0. -/
theorem C7_watermark_placement (base logo : ImageMeta) :
    (applyWatermark base logo).left =
      max 0 ((base.width : ℤ) -
        (applyWatermark base logo).targetLogoWidth - 10) ∧
    (applyWatermark base logo).top = 10 ∧
    ((applyWatermark base logo).targetLogoWidth + 10 ≤ (base.width : ℤ) →
      (applyWatermark base logo).left +
          (applyWatermark base logo).targetLogoWidth =
        (base.width : ℤ) - 10) ∧
    ((base.width : ℤ) < (applyWatermark base logo).targetLogoWidth + 10 →
      (applyWatermark base logo).left = 0) := by
  refine ⟨rfl, rfl, ?_, ?_⟩
  · intro h
    have hl : (applyWatermark base logo).left =
        max 0 ((base.width : ℤ) -
          (applyWatermark base logo).targetLogoWidth - 10) := rfl
    rw [hl, max_eq_right (by omega)]
    omega
  · intro h
    have hl : (applyWatermark base logo).left =
        max 0 ((base.width : ℤ) -
          (applyWatermark base logo).targetLogoWidth - 10) := rfl
    rw [hl, max_eq_left (by omega)]

theorem C7_witness :
    (applyWatermark ⟨500, 500⟩ ⟨50, 30⟩).left +
        (applyWatermark ⟨500, 500⟩ ⟨50, 30⟩).targetLogoWidth = 490 ∧
    (applyWatermark ⟨5, 5⟩ ⟨50, 30⟩).left = 0 := by
  constructor
  · have h := (C7_watermark_placement ⟨500, 500⟩ ⟨50, 30⟩).2.2.1
      (by norm_num [applyWatermark, jsRound, maxLogoWidth])
    exact h.trans (by norm_num)
  · exact (C7_watermark_placement ⟨5, 5⟩ ⟨50, 30⟩).2.2.2
      (by norm_num [applyWatermark, jsRound, maxLogoWidth])

/-- An image file as the watermark step consumes it: sharp metadata plus
raw bytes. -/
structure ImageData where
  meta : ImageMeta
  bytes : List Nat
deriving DecidableEq, Repr

/-- The composited result of the watermark step: the layout parameters
computed from the two metadata records together with the two input byte
payloads they are applied to.  `applyWatermark` in src/index.js reads
nothing besides its two input files and the fixed constants. -/
structure CompositeOutput where
  layout : WatermarkLayout
  baseBytes : List Nat
  logoBytes : List Nat
deriving DecidableEq, Repr

/-- The watermark step on full images (src/index.js lines 158-191). -/
def applyWatermarkFull (base logo : ImageData) : CompositeOutput :=
  { layout := applyWatermark base.meta logo.meta
    baseBytes := base.bytes
    logoBytes := logo.bytes }

/-- C8: the Watermarker is a pure function of its inputs — two invocations
on identical (base, logo) inputs produce identical composited output. -/
theorem C8_watermark_deterministic (b1 l1 b2 l2 : ImageData)
    (hb : b1 = b2) (hl : l1 = l2) :
    applyWatermarkFull b1 l1 = applyWatermarkFull b2 l2 := by
  rw [hb, hl]

theorem C8_witness :
    applyWatermarkFull ⟨⟨8, 8⟩, [1, 2]⟩ ⟨⟨4, 4⟩, [3]⟩ =
      applyWatermarkFull ⟨⟨8, 8⟩, [1, 2]⟩ ⟨⟨4, 4⟩, [3]⟩ :=
  C8_watermark_deterministic ⟨⟨8, 8⟩, [1, 2]⟩ ⟨⟨4, 4⟩, [3]⟩
    ⟨⟨8, 8⟩, [1, 2]⟩ ⟨⟨4, 4⟩, [3]⟩ rfl rfl

/-- One document of the `GalleryItem` collection (src/index.js lines
51-57). -/
structure GalleryRecord where
  id : Nat
  username : String
  inscription : String
  imageUrl : String
deriving DecidableEq, Repr

/-- The Mongo sort key `{ id: -1 }` of the gallery query: id descending. -/
def galleryOrder (a b : GalleryRecord) : Prop := b.id ≤ a.id

instance : DecidableRel galleryOrder := fun a b => Nat.decLe b.id a.id

instance : IsTotal GalleryRecord galleryOrder :=
  ⟨fun a b => Nat.le_total b.id a.id⟩

instance : IsTrans GalleryRecord galleryOrder :=
  ⟨fun _ _ _ h1 h2 => Nat.le_trans h2 h1⟩

/-- `GalleryItem.find().sort(\x7b id: -1 \x7d)`: the stored records sorted by
id descending (stable sort). -/
def sortByIdDesc (records : List GalleryRecord) : List GalleryRecord :=
  List.insertionSort galleryOrder records

/-- The JSON body `res.json(\x7b total, items \x7d)` of the gallery route. -/
structure GalleryResponse where
  total : Nat
  items : List GalleryRecord
deriving DecidableEq, Repr

/-- The `GET /api/gallery` handler of src/index.js lines 349-365:
`page = parseInt(req.query.page) || 1`, `limit = 10`,
`skip = (page - 1) * limit`, `total = countDocuments()` (all records),
`items = find().sort(\x7b id: -1 \x7d).skip(skip).limit(limit)`. -/
def galleryHandler (records : List GalleryRecord) (pageArg : Option Nat) :
    GalleryResponse :=
  let page := jsOrDefault pageArg 1
  let skip := (page - 1) * 10
  { total := records.length
    items := ((sortByIdDesc records).drop skip).take 10 }

/-- The deduplication the spec describes for the gallery listing (at most
one record per username, keeping the most recent), stated from the spec's
words for comparison with `galleryHandler`; it is not what src/index.js
implements. -/
def specDedupByUsername : List GalleryRecord → List GalleryRecord
  | [] => []
  | r :: rest =>
    r :: (specDedupByUsername rest).filter (fun x => x.username != r.username)

/-- C9 counterexample: two stored records that share the username "alice"
are both returned by the gallery handler, and the reported total is the
raw record count 2, not the deduplicated count 1 — the listing is not
deduplicated by username. -/
theorem C9_counterexample :
    (galleryHandler
        [⟨1, "alice", "a", "u1"⟩, ⟨2, "alice", "b", "u2"⟩] (some 1)).total = 2 ∧
    ((galleryHandler
        [⟨1, "alice", "a", "u1"⟩, ⟨2, "alice", "b", "u2"⟩] (some 1)).items.map
      GalleryRecord.username) = ["alice", "alice"] ∧
    (specDedupByUsername (sortByIdDesc
        [⟨1, "alice", "a", "u1"⟩, ⟨2, "alice", "b", "u2"⟩])).length = 1 := by
  decide

/-- C9 (amended): for every stored set of gallery records and page number,
`GET /api/gallery` returns the total count of all stored records and the
requested 10-element page of the listing sorted by id descending, with no
deduplication by username. -/
theorem C9_amended_gallery_pagination (records : List GalleryRecord)
    (pageArg : Option Nat) :
    (galleryHandler records pageArg).total = records.length ∧
    (galleryHandler records pageArg).items =
      ((sortByIdDesc records).drop ((jsOrDefault pageArg 1 - 1) * 10)).take 10 ∧
    List.Sorted galleryOrder (galleryHandler records pageArg).items ∧
    (galleryHandler records pageArg).items.length ≤ 10 := by
  refine ⟨rfl, rfl, ?_, ?_⟩
  · have hs : List.Sorted galleryOrder (sortByIdDesc records) :=
      List.sorted_insertionSort galleryOrder records
    have hsub :
        (((sortByIdDesc records).drop
            ((jsOrDefault pageArg 1 - 1) * 10)).take 10).Sublist
          (sortByIdDesc records) :=
      (List.take_sublist _ _).trans (List.drop_sublist _ _)
    exact List.Pairwise.sublist hsub hs
  · exact List.length_take_le _ _
